import Mathlib

/-!
Shallow embedding of the yt-summarize pipeline (src/yt-summarize.py).

Pure string manipulation (video-id extraction, transcript truncation,
title sanitization, prompt and note building) is translated directly.
Remote calls (oembed metadata, transcript service, completion API, the
local HTTPS document store) are modelled by explicit outcome values
threaded through the functions, so every repository-level decision
(which branch runs, what is printed, which exit code results) is a
total computable Lean function of those outcomes.
-/

set_option maxHeartbeats 1000000

/-- The video-id character class of the source regexes, [a-zA-Z0-9_-]
(ASCII letters, digits, underscore, hyphen). -/
def isIdChar (c : Char) : Bool :=
  c.isUpper || c.isLower || c.isDigit || c == '_' || c == '-'

/-! ### Summarizer preprocessing (summarize, src lines 72-99) -/

/-- `max_chars = 100_000` from `summarize`. -/
def max_chars : Nat := 100000

/-- Lines 77-79: `if len(transcript) > max_chars: transcript =
transcript[:max_chars] + "\n[transcript truncated]"`.  Python slicing
takes the first 100000 code points, modelled by `List.take` on the
character list. -/
def truncateTranscript (transcript : String) : String :=
  if transcript.length > max_chars then
    String.mk (transcript.data.take max_chars) ++ "\n[transcript truncated]"
  else transcript

/-- The fixed user prompt of `summarize` (lines 87-94), with the
(possibly truncated) transcript embedded verbatim at the end. -/
def promptText (transcript : String) : String :=
  "Below is a transcript of a YouTube video. " ++
  "Please provide a structured summary with:\n" ++
  "1. A one-line TLDR\n" ++
  "2. Key points (bulleted)\n" ++
  "3. A brief conclusion\n\n" ++
  "Keep the summary concise and readable.\n\n" ++
  "TRANSCRIPT:\n" ++ transcript

/-- The completion request dispatched by `summarize` (lines 81-98):
fixed model identifier, fixed `max_tokens = 1024`, and the single user
message. -/
structure CompletionCall where
  model : String
  maxTokens : Nat
  prompt : String
  deriving DecidableEq

/-- The request `summarize` builds for a given transcript, after the
truncation preprocessing. -/
def summarizeRequest (transcript : String) : CompletionCall :=
  { model := "claude-sonnet-4-20250514", maxTokens := 1024,
    prompt := promptText (truncateTranscript transcript) }

/-! ### Title sanitization and note path (send_to_obsidian, lines 112-114) -/

/-- The character class of `re.sub(r'[\\/:*?"<>|]', "-", title)`. -/
def isForbiddenChar (c : Char) : Bool :=
  c == '\\' || c == '/' || c == ':' || c == '*' || c == '?' ||
  c == '\"' || c == '<' || c == '>' || c == '|'

/-- One step of the `re.sub` replacement: a forbidden character becomes
a hyphen, everything else is kept. -/
def replaceForbidden (c : Char) : Char := if isForbiddenChar c then '-' else c

/-- Python `str.strip` whitespace (ASCII part): space, tab, newline,
carriage return, vertical tab, form feed. -/
def isPySpace (c : Char) : Bool :=
  c == ' ' || c == '\t' || c == '\n' || c == '\r' || c == '\x0b' || c == '\x0c'

/-- Python `str.strip()` on a character list: drop whitespace from both
ends. -/
def pyStripList (l : List Char) : List Char :=
  ((l.dropWhile isPySpace).reverse.dropWhile isPySpace).reverse

/-- Line 113: `safe_title = re.sub(r'[\\/:*?"<>|]', "-", title).strip()`. -/
def safe_title (title : String) : String :=
  String.mk (pyStripList (title.data.map replaceForbidden))

/-! ### Helper lemmas about dropWhile and stripping -/

theorem dropWhile_head_not (p : Char → Bool) :
    ∀ (l : List Char) (c : Char), (l.dropWhile p).head? = some c → p c = false := by
  intro l
  induction l with
  | nil => intro c h; simp [List.dropWhile] at h
  | cons a l ih =>
    intro c h
    rw [List.dropWhile_cons] at h
    by_cases hp : p a
    · rw [if_pos hp] at h; exact ih c h
    · rw [if_neg hp] at h
      simp at h
      rw [← h]
      exact Bool.eq_false_iff.mpr hp

theorem dropWhile_getLast_not (p : Char → Bool) :
    ∀ (l : List Char) (c : Char), (l.dropWhile p).getLast? = some c → l.getLast? = some c := by
  intro l
  induction l with
  | nil => intro c h; simp [List.dropWhile] at h
  | cons a l ih =>
    intro c h
    rw [List.dropWhile_cons] at h
    by_cases hp : p a
    · rw [if_pos hp] at h
      have hl := ih c h
      match l, hl with
      | b :: l2, hl => rw [List.getLast?_cons_cons]; exact hl
    · rw [if_neg hp] at h; exact h

theorem mem_of_mem_dropWhile (p : Char → Bool) :
    ∀ (l : List Char) (c : Char), c ∈ l.dropWhile p → c ∈ l := by
  intro l
  induction l with
  | nil => intro c h; simp [List.dropWhile] at h
  | cons a l ih =>
    intro c h
    rw [List.dropWhile_cons] at h
    by_cases hp : p a
    · rw [if_pos hp] at h; exact List.mem_cons_of_mem a (ih c h)
    · rw [if_neg hp] at h; exact h

theorem mem_of_mem_pyStripList (l : List Char) (c : Char)
    (h : c ∈ pyStripList l) : c ∈ l := by
  unfold pyStripList at h
  rw [List.mem_reverse] at h
  have h2 := mem_of_mem_dropWhile _ _ _ h
  rw [List.mem_reverse] at h2
  exact mem_of_mem_dropWhile _ _ _ h2

theorem pyStripList_head (l : List Char) (c : Char)
    (h : (pyStripList l).head? = some c) : isPySpace c = false := by
  unfold pyStripList at h
  rw [List.head?_reverse] at h
  have h2 := dropWhile_getLast_not _ _ _ h
  rw [List.getLast?_reverse] at h2
  exact dropWhile_head_not _ _ _ h2

theorem pyStripList_getLast (l : List Char) (c : Char)
    (h : (pyStripList l).getLast? = some c) : isPySpace c = false := by
  unfold pyStripList at h
  rw [List.getLast?_reverse] at h
  exact dropWhile_head_not _ _ _ h

/-! ### Note publisher model (send_to_obsidian, src lines 102-147) -/

/-- The three environment variables read by `send_to_obsidian`.  `none`
models an unset variable.  The port is modelled post-`int(...)` since no
claim concerns integer parsing of the override. -/
structure ObsEnv where
  apiKey : Option String
  port : Option Nat
  folder : Option String
  deriving DecidableEq

/-- Line 114: `note_path = f"{folder}/{safe_title}.md"` with the folder
default of line 110. -/
def obsNotePath (env : ObsEnv) (title : String) : String :=
  env.folder.getD "transcripts/videos" ++ "/" ++ safe_title title ++ ".md"

/-- Lines 116-122: the note body with front matter. -/
def noteContentOf (videoId summary : String) : String :=
  "---\nsource: https://www.youtube.com/watch?v=" ++ videoId ++
  "\ntype: youtube-summary\n---\n\n" ++ summary ++ "\n"

/-- Uppercase hex digit, as produced by `urllib.parse.quote`. -/
def hexDigitChar (n : Nat) : Char :=
  if n < 10 then Char.ofNat (48 + n) else Char.ofNat (55 + n)

/-- UTF-8 encoding of one character, as a list of byte values. -/
def utf8Bytes (c : Char) : List Nat :=
  let n := c.toNat
  if n < 128 then [n]
  else if n < 2048 then [192 + n / 64, 128 + n % 64]
  else if n < 65536 then [224 + n / 4096, 128 + n / 64 % 64, 128 + n % 64]
  else [240 + n / 262144, 128 + n / 4096 % 64, 128 + n / 64 % 64, 128 + n % 64]

/-- Characters `urllib.parse.quote` leaves unencoded with `safe='/'`:
letters, digits, `_.-~` and the slash. -/
def quoteSafe (c : Char) : Bool :=
  c.isUpper || c.isLower || c.isDigit ||
  c == '_' || c == '.' || c == '-' || c == '~' || c == '/'

/-- Line 124: `urllib.request.quote(note_path, safe='/')`. -/
def urlQuote (s : String) : String :=
  String.mk ((s.data.map fun c =>
    if quoteSafe c then [c]
    else ((utf8Bytes c).map fun b => ['%', hexDigitChar (b / 16), hexDigitChar (b % 16)]).flatten).flatten)

/-- The PUT request built on lines 124-139. -/
structure ObsRequest where
  url : String
  method : String
  authorization : String
  contentType : String
  body : String
  deriving DecidableEq

/-- Observable actions of a run: a line on standard output, a line on
the error stream, or an HTTP request issued to the document store. -/
inductive Event where
  | out (s : String)
  | errLine (s : String)
  | httpPut (r : ObsRequest)
  deriving DecidableEq

/-- Outcome of the document-store PUT as seen on the wire: either the
server answers with a final HTTP status, or the transport fails. -/
inductive ServerOutcome where
  | status (n : Nat)
  | transportError (e : String)
  deriving DecidableEq

/-- CPython `urllib.request.urlopen` behavior for this PUT request: a
transport failure raises `URLError`; a final status outside 200-299
raises `HTTPError` (the default `HTTPErrorProcessor` accepts only 2xx,
and `HTTPRedirectHandler` refuses to redirect a PUT, so 3xx also
raises).  `Except.error` carries the printed exception text. -/
def urlopen : ServerOutcome → Except String Nat
  | .status n => if 200 ≤ n ∧ n < 300 then .ok n else .error ("HTTP Error " ++ toString n)
  | .transportError e => .error e

/-- Lines 124-139: the request object (URL with resolved port and
quoted path, bearer header, markdown content type, UTF-8 body). -/
def obsRequest (apiKey notePath noteContent : String) (port : Nat) : ObsRequest :=
  { url := "https://127.0.0.1:" ++ toString port ++ "/vault/" ++ urlQuote notePath
    method := "PUT"
    authorization := "Bearer " ++ apiKey
    contentType := "text/markdown"
    body := noteContent }

/-- `send_to_obsidian` (lines 102-147).  Returns the emitted events and
`some code` when the function terminates the process via `sys.exit`,
`none` when it returns normally.  `os.environ.get` yields `None` for an
unset variable and `if not api_key` also catches the empty string, so
the check is on `getD ""`. -/
def send_to_obsidian (title videoId summary : String) (env : ObsEnv)
    (srv : ServerOutcome) : List Event × Option Nat :=
  let apiKey := env.apiKey.getD ""
  if apiKey = "" then
    ([Event.errLine "Error: OBSIDIAN_REST_API_KEY environment variable not set."], some 1)
  else
    let port := env.port.getD 27124
    let notePath := obsNotePath env title
    let req := obsRequest apiKey notePath (noteContentOf videoId summary) port
    match urlopen srv with
    | .ok status =>
      if status < 300 then
        ([Event.httpPut req, Event.errLine ("Saved to Obsidian: " ++ notePath)], none)
      else ([Event.httpPut req], none)
    | .error e =>
      ([Event.httpPut req, Event.errLine ("Error sending to Obsidian: " ++ e)], some 1)

/-! ### Claim C2: transcript truncation -/

/-- Claim C2: a transcript longer than 100000 characters is replaced,
before the completion request is built, by exactly its first 100000
characters followed by the literal suffix "\n[transcript truncated]"
(so its length becomes 100023); a transcript of at most 100000
characters passes through unchanged.  The dispatched request embeds the
truncated transcript in its prompt. -/
theorem claim2_truncation (t : String) :
    ((summarizeRequest t).prompt = promptText (truncateTranscript t)) ∧
    (t.length > max_chars →
      truncateTranscript t = String.mk (t.data.take max_chars) ++ "\n[transcript truncated]" ∧
      (truncateTranscript t).length = max_chars + 23) ∧
    (t.length ≤ max_chars → truncateTranscript t = t) := by
  refine ⟨rfl, ?_, ?_⟩
  · intro h
    have ht : truncateTranscript t =
        String.mk (t.data.take max_chars) ++ "\n[transcript truncated]" := by
      unfold truncateTranscript
      rw [if_pos h]
    refine ⟨ht, ?_⟩
    rw [ht, String.length_append]
    have h1 : (String.mk (t.data.take max_chars)).length = max_chars := by
      show (t.data.take max_chars).length = max_chars
      rw [List.length_take]
      have h2 : t.length = t.data.length := rfl
      omega
    rw [h1]
    rfl
  · intro h
    unfold truncateTranscript
    rw [if_neg (by omega)]

/-- A concrete 150000-character transcript, for the long branch of the
truncation claim. -/
def longTranscript : String := String.mk (List.replicate 150000 'a')

theorem claim2_truncation_w :
    (longTranscript.length > max_chars ∧
      truncateTranscript longTranscript =
        String.mk (longTranscript.data.take max_chars) ++ "\n[transcript truncated]" ∧
      (truncateTranscript longTranscript).length = max_chars + 23) ∧
    (("short" : String).length ≤ max_chars ∧ truncateTranscript "short" = "short") := by
  have h1 : longTranscript.length > max_chars := by
    show (List.replicate 150000 'a').length > max_chars
    rw [List.length_replicate]
    decide
  have h2 : ("short" : String).length ≤ max_chars := by decide
  exact ⟨⟨h1, (claim2_truncation longTranscript).2.1 h1⟩,
         ⟨h2, (claim2_truncation "short").2.2 h2⟩⟩

/-! ### Claim C8: title sanitization and note path -/

/-- Claim C8: the sanitized title replaces every occurrence of
\ / : * ? " < > | by a hyphen and trims surrounding whitespace (the
result contains no forbidden character and neither starts nor ends with
whitespace), the note path is folder/sanitized-title.md, and the title
"My: Video? <Test>" yields the filename "My- Video- -Test-.md". -/
theorem claim8_sanitize :
    (∀ env title, obsNotePath env title =
      env.folder.getD "transcripts/videos" ++ "/" ++ safe_title title ++ ".md") ∧
    (∀ title c, c ∈ (safe_title title).data → isForbiddenChar c = false) ∧
    (∀ title c, (safe_title title).data.head? = some c → isPySpace c = false) ∧
    (∀ title c, (safe_title title).data.getLast? = some c → isPySpace c = false) ∧
    safe_title "My: Video? <Test>" = "My- Video- -Test-" ∧
    (∀ env, env.folder = none →
      obsNotePath env "My: Video? <Test>" = "transcripts/videos/My- Video- -Test-.md") := by
  refine ⟨fun env title => rfl, ?_, ?_, ?_, rfl, ?_⟩
  · intro title c h
    have h2 := mem_of_mem_pyStripList _ _ h
    rcases List.mem_map.mp h2 with ⟨a, _, ha⟩
    rw [← ha]
    unfold replaceForbidden
    by_cases hf : isForbiddenChar a
    · rw [if_pos hf]; rfl
    · rw [if_neg hf]; exact Bool.eq_false_iff.mpr hf
  · intro title c h
    exact pyStripList_head _ _ h
  · intro title c h
    exact pyStripList_getLast _ _ h
  · intro env henv
    show env.folder.getD "transcripts/videos" ++ "/" ++ safe_title "My: Video? <Test>" ++ ".md" =
      "transcripts/videos/My- Video- -Test-.md"
    rw [henv]
    rfl

theorem claim8_sanitize_w :
    ('M' ∈ (safe_title "My: Video? <Test>").data ∧ isForbiddenChar 'M' = false) ∧
    ((safe_title "My: Video? <Test>").data.head? = some 'M' ∧ isPySpace 'M' = false) ∧
    ((safe_title "My: Video? <Test>").data.getLast? = some '-' ∧ isPySpace '-' = false) ∧
    obsNotePath ⟨some "k", none, none⟩ "My: Video? <Test>" =
      "transcripts/videos/My- Video- -Test-.md" := by
  refine ⟨⟨by decide, claim8_sanitize.2.1 "My: Video? <Test>" 'M' (by decide)⟩,
          ⟨by decide, claim8_sanitize.2.2.1 "My: Video? <Test>" 'M' (by decide)⟩,
          ⟨by decide, claim8_sanitize.2.2.2.1 "My: Video? <Test>" '-' (by decide)⟩,
          claim8_sanitize.2.2.2.2.2 ⟨some "k", none, none⟩ rfl⟩

/-! ### Transcript fetcher model (fetch_transcript, src lines 47-69) -/

/-- One timed caption entry as returned by the transcript service:
text plus timing metadata (start and duration; only `text` is ever read
by the script, so the numeric representation is immaterial). -/
structure Snippet where
  text : String
  start : Nat
  duration : Nat
  deriving DecidableEq

/-- A caption track after translation: only its timed-entry fetch
behavior remains relevant. -/
structure TransTrack where
  fetch : Except String (List Snippet)

/-- A caption track as enumerated by the transcript service: fetching
its timed entries may fail, and requesting its English translation may
fail or yield a translated track. -/
structure Track where
  fetch : Except String (List Snippet)
  translateEn : Except String TransTrack

/-- The transcript listing for one video identifier.  `manualEn` /
`generatedEn` model the library lookups
`find_manually_created_transcript(["en"])` and
`find_generated_transcript(["en"])` (`none` = the lookup raises), and
`tracks` is the enumeration order used by `next(iter(transcript_list))`. -/
structure TranscriptList where
  manualEn : Option Track
  generatedEn : Option Track
  tracks : List Track

/-- Which lookup of the fallback chain produced the track that will be
fetched. -/
inductive TrackChoice where
  | manual (t : Track)
  | generated (t : Track)
  | translated (t : TransTrack)

/-- Lines 53-63: try manual English, then auto-generated English, then
translate the first enumerated track to English.  An empty enumeration
(`StopIteration`) or a failing translation escapes to the outer
handler. -/
def selectTranscript (l : TranscriptList) : Except String TrackChoice :=
  match l.manualEn with
  | some t => .ok (.manual t)
  | none =>
    match l.generatedEn with
    | some t => .ok (.generated t)
    | none =>
      match l.tracks with
      | [] => .error "StopIteration"
      | t :: _ =>
        match t.translateEn with
        | .ok tt => .ok (.translated tt)
        | .error e => .error e

/-- `transcript.fetch()` on the selected track. -/
def chosenFetch : TrackChoice → Except String (List Snippet)
  | .manual t => t.fetch
  | .generated t => t.fetch
  | .translated t => t.fetch

/-- Python `" ".join(texts)`: elements separated by single spaces. -/
def joinTexts : List String → String
  | [] => ""
  | [t] => t
  | t :: u :: rest => t ++ " " ++ joinTexts (u :: rest)

/-- Line 66: `" ".join(snippet.text for snippet in entries)`. -/
def joinEntries (entries : List Snippet) : String :=
  joinTexts (entries.map Snippet.text)

/-- `fetch_transcript` (lines 47-69): select a track, fetch its timed
entries, join their texts; any raised error is caught at line 67,
printed as "Error fetching transcript: ..." and turned into `exit 1`
(modelled as `Except.error` carrying the diagnostic). -/
def fetch_transcript (l : TranscriptList) : Except String String :=
  match selectTranscript l with
  | .error e => .error ("Error fetching transcript: " ++ e)
  | .ok c =>
    match chosenFetch c with
    | .error e => .error ("Error fetching transcript: " ++ e)
    | .ok entries => .ok (joinEntries entries)

/-! ### Metadata fetcher model (fetch_video_title, src lines 36-44) -/

/-- Outcome of the oembed metadata call, one constructor per failure
mode the try block can encounter: network failure, a non-200 status
(raised by urlopen), a body `json.loads` rejects, a JSON object without
a "title" key (`data["title"]` raises KeyError), or a successful title. -/
inductive OembedOutcome where
  | netError (e : String)
  | httpError (status : Nat)
  | badJson (e : String)
  | missingTitle
  | titled (title : String)
  deriving DecidableEq

/-- `fetch_video_title` (lines 36-44): the title on success; every
exception is swallowed by `except Exception` and the video id is
returned instead.  The return type `String` (not `Except`) reflects
that the function never raises and never exits. -/
def fetch_video_title (videoId : String) (o : OembedOutcome) : String :=
  match o with
  | .titled t => t
  | _ => videoId

/-! ### Identifier resolver model (extract_video_id, src lines 16-33) -/

/-- The capturing group `([a-zA-Z0-9_-]{11})`: exactly the next 11
characters, all from the id charset. -/
def idTake (s : List Char) : Option (List Char) :=
  let g := s.take 11
  if g.length == 11 && g.all isIdChar then some g else none

/-- Matching `LIT([a-zA-Z0-9_-]{11})` at the start of `s`: the literal
prefix followed by the captured group. -/
def matchLitAt (lit : List Char) (s : List Char) : Option (List Char) :=
  if lit.isPrefixOf s then idTake (s.drop lit.length) else none

/-- Matching `v=([a-zA-Z0-9_-]{11})` at the start of `s`. -/
def vMatch (s : List Char) : Option (List Char) :=
  matchLitAt ['v', '='] s

/-- The greedy `.*v=([a-zA-Z0-9_-]{11})` tail of the second pattern:
`.*` consumes as many non-newline characters as possible, backtracking
from the longest stretch, so the last viable `v=` before the first
newline wins. -/
def greedyV : List Char → Option (List Char)
  | [] => vMatch []
  | c :: rest =>
    if c == '\n' then vMatch (c :: rest)
    else
      match greedyV rest with
      | some g => some g
      | none => vMatch (c :: rest)

/-- The literal part of the second pattern, `youtube\.com/watch\?`. -/
def watchLit : List Char := "youtube.com/watch?".data

/-- Matching pattern 2, `(?:youtube\.com/watch\?.*v=)([a-zA-Z0-9_-]{11})`,
at the start of `s`. -/
def watchMatch (s : List Char) : Option (List Char) :=
  if watchLit.isPrefixOf s then greedyV (s.drop watchLit.length) else none

/-- `re.search` semantics: try the pattern matcher at every start
position from the left, returning the first capture. -/
def reSearch (m : List Char → Option (List Char)) : List Char → Option (List Char)
  | [] => m []
  | c :: rest =>
    match m (c :: rest) with
    | some g => some g
    | none => reSearch m rest

/-- Pattern 1, `(?:youtu\.be/)([a-zA-Z0-9_-]{11})`, at one position. -/
def pat1 (s : List Char) : Option (List Char) := matchLitAt "youtu.be/".data s

/-- Pattern 3, `(?:youtube\.com/embed/)([a-zA-Z0-9_-]{11})`. -/
def pat3 (s : List Char) : Option (List Char) := matchLitAt "youtube.com/embed/".data s

/-- Pattern 4, `(?:youtube\.com/v/)([a-zA-Z0-9_-]{11})`. -/
def pat4 (s : List Char) : Option (List Char) := matchLitAt "youtube.com/v/".data s

/-- Pattern 5, `(?:youtube\.com/shorts/)([a-zA-Z0-9_-]{11})`. -/
def pat5 (s : List Char) : Option (List Char) := matchLitAt "youtube.com/shorts/".data s

/-- Lines 25-28: the loop over the five patterns in order, returning
the first pattern's first captured group. -/
def searchPatterns (s : List Char) : Option (List Char) :=
  match reSearch pat1 s with
  | some g => some g
  | none =>
    match reSearch watchMatch s with
    | some g => some g
    | none =>
      match reSearch pat3 s with
      | some g => some g
      | none =>
        match reSearch pat4 s with
        | some g => some g
        | none => reSearch pat5 s

/-- `extract_video_id` (lines 16-33): the five regex searches in order,
then the bare-id `re.fullmatch` check, else a printed diagnostic naming
the input and `sys.exit(1)` (modelled as `Except.error` carrying the
diagnostic). -/
def extract_video_id (url : String) : Except String String :=
  match searchPatterns url.data with
  | some g => .ok (String.mk g)
  | none =>
    if url.data.length == 11 && url.data.all isIdChar then .ok url
    else .error ("Error: Could not extract video ID from: " ++ url)

/-! ### Orchestrator model (main, src lines 150-173) -/

/-- The external world a run interacts with: metadata endpoint behavior,
transcript listing, completion service (its answer may depend on the
request), publisher environment, and document-store behavior. -/
structure World where
  oembed : OembedOutcome
  tlist : TranscriptList
  completion : CompletionCall → Except String String
  env : ObsEnv
  server : ServerOutcome

/-- `main` (lines 150-173), named `mainRun` since `main` is reserved
in Lean: the strict pipeline.  Returns the emitted
events in order and the process exit code.  A failing completion call
(line 165) is an uncaught exception: Python prints a traceback to the
error stream and exits with code 1. -/
def mainRun (url : String) (noObsidian : Bool) (w : World) : List Event × Nat :=
  match extract_video_id url with
  | .error e => ([Event.errLine e], 1)
  | .ok videoId =>
    let fetchMsg := Event.errLine ("Fetching transcript for video: " ++ videoId ++ " ...")
    let title := fetch_video_title videoId w.oembed
    let titleMsg := Event.errLine ("Video title: " ++ title)
    match fetch_transcript w.tlist with
    | .error e => ([fetchMsg, titleMsg, Event.errLine e], 1)
    | .ok transcript =>
      let lenMsg := Event.errLine ("Transcript fetched (" ++ toString transcript.length ++
        " chars). Summarizing ...")
      match w.completion (summarizeRequest transcript) with
      | .error e => ([fetchMsg, titleMsg, lenMsg, Event.errLine e], 1)
      | .ok summary =>
        if noObsidian then ([fetchMsg, titleMsg, lenMsg, Event.out summary], 0)
        else
          let obs := send_to_obsidian title videoId summary w.env w.server
          ([fetchMsg, titleMsg, lenMsg, Event.out summary] ++ obs.1, obs.2.getD 0)

/-- Discriminator for the successful oembed outcome. -/
def OembedOutcome.isTitled : OembedOutcome → Bool
  | .titled _ => true
  | _ => false

/-! ### Claim C3: transcript fallback chain -/

/-- Claim C3: the transcript fetcher prefers a manually created English
track; only when none exists does it take an auto-generated English
track; only when neither exists does it take the first enumerated track
and request its English translation (an empty enumeration raises). -/
theorem claim3_fallback (l : TranscriptList) :
    (∀ t, l.manualEn = some t → selectTranscript l = .ok (.manual t)) ∧
    (∀ t, l.manualEn = none → l.generatedEn = some t →
      selectTranscript l = .ok (.generated t)) ∧
    (∀ t rest, l.manualEn = none → l.generatedEn = none → l.tracks = t :: rest →
      selectTranscript l = t.translateEn.map TrackChoice.translated) ∧
    (l.manualEn = none → l.generatedEn = none → l.tracks = [] →
      selectTranscript l = .error "StopIteration") := by
  refine ⟨?_, ?_, ?_, ?_⟩
  · intro t h
    unfold selectTranscript
    rw [h]
  · intro t h1 h2
    unfold selectTranscript
    rw [h1, h2]
  · intro t rest h1 h2 h3
    unfold selectTranscript
    rw [h1, h2, h3]
    cases ht : t.translateEn <;> simp [ht, Except.map]
  · intro h1 h2 h3
    unfold selectTranscript
    rw [h1, h2, h3]

/-- A track whose translation request fails. -/
def wTrackA : Track := { fetch := .ok [], translateEn := .error "no translation" }

/-- A track whose own fetch fails but whose translation succeeds. -/
def wTrackB : Track := { fetch := .error "boom", translateEn := .ok { fetch := .ok [] } }

theorem claim3_fallback_w :
    ((⟨some wTrackA, some wTrackB, [wTrackB]⟩ : TranscriptList).manualEn = some wTrackA ∧
      selectTranscript ⟨some wTrackA, some wTrackB, [wTrackB]⟩ = .ok (.manual wTrackA)) ∧
    (selectTranscript ⟨none, some wTrackB, [wTrackA]⟩ = .ok (.generated wTrackB)) ∧
    (selectTranscript ⟨none, none, [wTrackB]⟩ =
      wTrackB.translateEn.map TrackChoice.translated) ∧
    (selectTranscript ⟨none, none, []⟩ = .error "StopIteration") :=
  ⟨⟨rfl, (claim3_fallback ⟨some wTrackA, some wTrackB, [wTrackB]⟩).1 wTrackA rfl⟩,
   (claim3_fallback ⟨none, some wTrackB, [wTrackA]⟩).2.1 wTrackB rfl rfl,
   (claim3_fallback ⟨none, none, [wTrackB]⟩).2.2.1 wTrackB [] rfl rfl rfl,
   (claim3_fallback ⟨none, none, []⟩).2.2.2 rfl rfl rfl⟩

/-! ### Claim C7: transcript concatenation -/

/-- Claim C7: on success the transcript is the single-space join of the
entry texts in original order, timing metadata discarded (the result
depends only on the texts); the entries "Hello", "world", "!" give
exactly "Hello world !". -/
theorem claim7_join :
    joinEntries [⟨"Hello", 0, 2⟩, ⟨"world", 2, 3⟩, ⟨"!", 5, 1⟩] = "Hello world !" ∧
    (∀ es fs, es.map Snippet.text = fs.map Snippet.text → joinEntries es = joinEntries fs) ∧
    (∀ s es, joinEntries (s :: es) =
      s.text ++ (if es.isEmpty then "" else " " ++ joinEntries es)) ∧
    (∀ l c entries, selectTranscript l = .ok c → chosenFetch c = .ok entries →
      fetch_transcript l = .ok (joinEntries entries)) := by
  refine ⟨rfl, ?_, ?_, ?_⟩
  · intro es fs h
    unfold joinEntries
    rw [h]
  · intro s es
    cases es with
    | nil =>
      show s.text = s.text ++ ""
      rw [String.append_empty]
    | cons u rest =>
      show s.text ++ " " ++ joinTexts (u.text :: rest.map Snippet.text) = _
      rw [String.append_assoc]
      rfl
  · intro l c entries h1 h2
    unfold fetch_transcript
    simp only [h1, h2]

theorem claim7_join_w :
    (joinEntries [⟨"Hello", 9, 9⟩, ⟨"world", 1, 0⟩, ⟨"!", 7, 7⟩] =
      joinEntries [⟨"Hello", 0, 2⟩, ⟨"world", 2, 3⟩, ⟨"!", 5, 1⟩]) ∧
    (joinEntries [⟨"solo", 4, 4⟩] = "solo" ++ "") ∧
    (selectTranscript ⟨some wTrackA, none, []⟩ = .ok (.manual wTrackA) ∧
      chosenFetch (.manual wTrackA) = .ok [] ∧
      fetch_transcript ⟨some wTrackA, none, []⟩ = .ok (joinEntries [])) := by
  refine ⟨claim7_join.2.1 _ _ rfl, ?_, rfl, rfl,
    claim7_join.2.2.2 ⟨some wTrackA, none, []⟩ (.manual wTrackA) [] rfl rfl⟩
  have h := claim7_join.2.2.1 ⟨"solo", 4, 4⟩ []
  simpa using h

/-! ### Claim C4: upload success/failure handling -/

/-- Claim C4: with the credential present, a 2xx response is success
(a diagnostic naming the note path goes to the error stream and the
function returns, continuing the process); a status of 300 or above
surfaces as an HTTPError from urlopen and, like any transport error, is
caught: a diagnostic goes to the error stream and the process exits
with code 1.  Final response statuses are at least 200 (the HTTP client
consumes 1xx interim responses), so the success side is stated for
200-299. -/
theorem claim4_upload (title vid summary : String) (env : ObsEnv) (k : String)
    (hk : env.apiKey = some k) (hne : k ≠ "") :
    (∀ n, 200 ≤ n → n < 300 →
      send_to_obsidian title vid summary env (.status n) =
        ([Event.httpPut (obsRequest k (obsNotePath env title)
            (noteContentOf vid summary) (env.port.getD 27124)),
          Event.errLine ("Saved to Obsidian: " ++ obsNotePath env title)], none)) ∧
    (∀ n, 300 ≤ n →
      send_to_obsidian title vid summary env (.status n) =
        ([Event.httpPut (obsRequest k (obsNotePath env title)
            (noteContentOf vid summary) (env.port.getD 27124)),
          Event.errLine ("Error sending to Obsidian: " ++ ("HTTP Error " ++ toString n))],
         some 1)) ∧
    (∀ e, send_to_obsidian title vid summary env (.transportError e) =
        ([Event.httpPut (obsRequest k (obsNotePath env title)
            (noteContentOf vid summary) (env.port.getD 27124)),
          Event.errLine ("Error sending to Obsidian: " ++ e)], some 1)) := by
  have hkey : env.apiKey.getD "" = k := by rw [hk]; rfl
  refine ⟨?_, ?_, ?_⟩
  · intro n h1 h2
    unfold send_to_obsidian
    rw [hkey, if_neg hne]
    have hu : urlopen (.status n) = .ok n := by
      simp only [urlopen]
      rw [if_pos ⟨h1, h2⟩]
    simp only [hu, if_pos h2]
  · intro n h1
    unfold send_to_obsidian
    rw [hkey, if_neg hne]
    have hu : urlopen (.status n) = .error ("HTTP Error " ++ toString n) := by
      simp only [urlopen]
      rw [if_neg (by omega)]
    simp only [hu]
  · intro e
    unfold send_to_obsidian
    rw [hkey, if_neg hne]
    rfl

theorem claim4_upload_w :
    (send_to_obsidian "T" "vid" "S" ⟨some "secret", none, none⟩ (.status 204) =
      ([Event.httpPut (obsRequest "secret" (obsNotePath ⟨some "secret", none, none⟩ "T")
          (noteContentOf "vid" "S") 27124),
        Event.errLine ("Saved to Obsidian: " ++ obsNotePath ⟨some "secret", none, none⟩ "T")],
       none)) ∧
    (send_to_obsidian "T" "vid" "S" ⟨some "secret", none, none⟩ (.status 301) =
      ([Event.httpPut (obsRequest "secret" (obsNotePath ⟨some "secret", none, none⟩ "T")
          (noteContentOf "vid" "S") 27124),
        Event.errLine ("Error sending to Obsidian: " ++ ("HTTP Error " ++ toString 301))],
       some 1)) ∧
    (send_to_obsidian "T" "vid" "S" ⟨some "secret", none, none⟩ (.transportError "boom") =
      ([Event.httpPut (obsRequest "secret" (obsNotePath ⟨some "secret", none, none⟩ "T")
          (noteContentOf "vid" "S") 27124),
        Event.errLine ("Error sending to Obsidian: " ++ "boom")], some 1)) := by
  have h := claim4_upload "T" "vid" "S" ⟨some "secret", none, none⟩ "secret" rfl (by decide)
  exact ⟨h.1 204 (by decide) (by decide), h.2.1 301 (by decide), h.2.2 "boom"⟩

/-! ### Claim C5: missing credential -/

/-- Claim C5: with publishing enabled and the bearer credential unset,
the publisher prints a diagnostic to the error stream and exits with
code 1, and no HTTP request is issued at all. -/
theorem claim5_credential (title vid summary : String) (env : ObsEnv)
    (srv : ServerOutcome) (h : env.apiKey = none) :
    send_to_obsidian title vid summary env srv =
      ([Event.errLine "Error: OBSIDIAN_REST_API_KEY environment variable not set."],
       some 1) ∧
    (∀ r, Event.httpPut r ∉ (send_to_obsidian title vid summary env srv).1) := by
  have he : send_to_obsidian title vid summary env srv =
      ([Event.errLine "Error: OBSIDIAN_REST_API_KEY environment variable not set."],
       some 1) := by
    unfold send_to_obsidian
    rw [h]
    rfl
  refine ⟨he, ?_⟩
  intro r
  rw [he]
  simp

theorem claim5_credential_w :
    send_to_obsidian "T" "vid" "S" ⟨none, none, none⟩ (.status 204) =
      ([Event.errLine "Error: OBSIDIAN_REST_API_KEY environment variable not set."],
       some 1) ∧
    (∀ r, Event.httpPut r ∉
      (send_to_obsidian "T" "vid" "S" ⟨none, none, none⟩ (.status 204)).1) :=
  claim5_credential "T" "vid" "S" ⟨none, none, none⟩ (.status 204) rfl

/-! ### Claim C6: metadata failures are non-fatal -/

/-- The exit component of the publisher does not depend on the strings
it is given (title, video id, summary), only on the environment and the
server outcome. -/
theorem send_exit_indep (ta tb va vb sa sb : String) (env : ObsEnv)
    (srv : ServerOutcome) :
    (send_to_obsidian ta va sa env srv).2 = (send_to_obsidian tb vb sb env srv).2 := by
  unfold send_to_obsidian
  by_cases h : env.apiKey.getD "" = ""
  · rw [if_pos h, if_pos h]
  · rw [if_neg h, if_neg h]
    cases h3 : urlopen srv with
    | ok status => by_cases h2 : status < 300 <;> simp [h3, h2]
    | error e => simp [h3]

/-- Claim C6: every failing oembed outcome makes the metadata fetcher
return the video id itself as the title (it returns a plain string, so
it cannot raise or exit), and the run's exit code is the same whatever
the oembed outcome is. -/
theorem claim6_metadata :
    (∀ vid o, o.isTitled = false → fetch_video_title vid o = vid) ∧
    (∀ (url : String) (flag : Bool) (w : World) (oa ob : OembedOutcome),
      (mainRun url flag { w with oembed := oa }).2 =
      (mainRun url flag { w with oembed := ob }).2) := by
  constructor
  · intro vid o h
    cases o <;> first | rfl | exact absurd h (by simp [OembedOutcome.isTitled])
  · intro url flag w oa ob
    unfold mainRun
    cases hx : extract_video_id url with
    | error e => rfl
    | ok vid =>
      simp only []
      cases hy : fetch_transcript w.tlist with
      | error e => rfl
      | ok transcript =>
        simp only []
        cases hz : w.completion (summarizeRequest transcript) with
        | error e => rfl
        | ok summary =>
          simp only []
          cases flag with
          | true => rfl
          | false =>
            rw [send_exit_indep (fetch_video_title vid oa) (fetch_video_title vid ob)
              vid vid summary summary w.env w.server]
            simp

/-- A track carrying the three sample caption entries. -/
def sampleTrack : Track :=
  { fetch := .ok [⟨"Hello", 0, 2⟩, ⟨"world", 2, 3⟩, ⟨"!", 5, 1⟩],
    translateEn := .error "no translation" }

/-- A fully successful world for concrete runs. -/
def sampleWorld : World :=
  { oembed := .titled "A Video"
    tlist := { manualEn := some sampleTrack, generatedEn := none, tracks := [sampleTrack] }
    completion := fun _ => .ok "SUMMARY"
    env := { apiKey := some "secret", port := none, folder := none }
    server := .status 204 }

theorem claim6_metadata_w :
    ((OembedOutcome.netError "unreachable").isTitled = false ∧
      fetch_video_title "dQw4w9WgXcQ" (.netError "unreachable") = "dQw4w9WgXcQ") ∧
    (mainRun "dQw4w9WgXcQ" false { sampleWorld with oembed := .badJson "bad" }).2 =
    (mainRun "dQw4w9WgXcQ" false { sampleWorld with oembed := .titled "A Video" }).2 :=
  ⟨⟨rfl, claim6_metadata.1 "dQw4w9WgXcQ" (.netError "unreachable") rfl⟩,
   claim6_metadata.2 "dQw4w9WgXcQ" false sampleWorld (.badJson "bad") (.titled "A Video")⟩

/-! ### Claim C9: the summary is printed before publishing -/

/-- Claim C9: whenever the summarizer succeeds, `main` emits the
summary on standard output strictly before any Note Publisher event;
the events before it are progress diagnostics only (no stdout line, no
HTTP request), so even a publisher failure leaves the summary printed. -/
theorem claim9_order (url : String) (flag : Bool) (w : World)
    (vid transcript summary : String)
    (h1 : extract_video_id url = .ok vid)
    (h2 : fetch_transcript w.tlist = .ok transcript)
    (h3 : w.completion (summarizeRequest transcript) = .ok summary) :
    ∃ pre obsEvents, (mainRun url flag w).1 = pre ++ [Event.out summary] ++ obsEvents ∧
      (∀ ev ∈ pre, (∀ s, ev ≠ Event.out s) ∧ (∀ r, ev ≠ Event.httpPut r)) ∧
      obsEvents = (if flag then [] else
        (send_to_obsidian (fetch_video_title vid w.oembed) vid summary w.env
          w.server).1) ∧
      Event.out summary ∈ (mainRun url flag w).1 := by
  have hpre : ∀ a b c : String,
      ∀ ev ∈ [Event.errLine a, Event.errLine b, Event.errLine c],
        (∀ s, ev ≠ Event.out s) ∧ (∀ r, ev ≠ Event.httpPut r) := by
    intro a b c ev hev
    simp only [List.mem_cons, List.not_mem_nil, or_false] at hev
    rcases hev with h | h | h <;> subst h <;>
      exact ⟨fun s => by simp, fun r => by simp⟩
  unfold mainRun
  simp only [h1, h2, h3]
  cases flag with
  | true =>
    refine ⟨[Event.errLine ("Fetching transcript for video: " ++ vid ++ " ..."),
      Event.errLine ("Video title: " ++ fetch_video_title vid w.oembed),
      Event.errLine ("Transcript fetched (" ++ toString transcript.length ++
        " chars). Summarizing ...")], [], by simp, hpre _ _ _, by simp, by simp⟩
  | false =>
    refine ⟨[Event.errLine ("Fetching transcript for video: " ++ vid ++ " ..."),
      Event.errLine ("Video title: " ++ fetch_video_title vid w.oembed),
      Event.errLine ("Transcript fetched (" ++ toString transcript.length ++
        " chars). Summarizing ...")],
      (send_to_obsidian (fetch_video_title vid w.oembed) vid summary w.env
        w.server).1, by simp, hpre _ _ _, by simp, by simp⟩

theorem claim9_order_w :
    ∃ pre obsEvents,
      (mainRun "dQw4w9WgXcQ" false sampleWorld).1 =
        pre ++ [Event.out "SUMMARY"] ++ obsEvents ∧
      (∀ ev ∈ pre, (∀ s, ev ≠ Event.out s) ∧ (∀ r, ev ≠ Event.httpPut r)) ∧
      obsEvents = (if false then [] else
        (send_to_obsidian (fetch_video_title "dQw4w9WgXcQ" sampleWorld.oembed)
          "dQw4w9WgXcQ" "SUMMARY" sampleWorld.env sampleWorld.server).1) ∧
      Event.out "SUMMARY" ∈ (mainRun "dQw4w9WgXcQ" false sampleWorld).1 :=
  claim9_order "dQw4w9WgXcQ" false sampleWorld "dQw4w9WgXcQ" "Hello world !" "SUMMARY"
    rfl rfl rfl

/-! ### Claim C1: specification-level pattern shapes

The success set of `extract_video_id` is characterised against
declarative decompositions of the input, independent of the search
functions above. -/

/-- An 11-character group over the id charset. -/
def ValidId (g : List Char) : Prop :=
  g.length = 11 ∧ ∀ c ∈ g, isIdChar c = true

/-- The input contains, anywhere, the literal `lit` immediately
followed by an 11-character id group (the shape of patterns 1, 3, 4
and 5). -/
def LitShape (lit s : List Char) : Prop :=
  ∃ pre g post, s = pre ++ lit ++ g ++ post ∧ ValidId g

/-- The input contains, anywhere, `youtube.com/watch?` then any
newline-free stretch then `v=` then an 11-character id group (the
shape of pattern 2, whose `.*` cannot cross a newline). -/
def WatchShape (s : List Char) : Prop :=
  ∃ pre mid g post, s = pre ++ watchLit ++ mid ++ ['v', '='] ++ g ++ post ∧
    (∀ c ∈ mid, c ≠ '\n') ∧ ValidId g

/-- The input contains one of the five URL shapes. -/
def MatchesPattern (s : List Char) : Prop :=
  LitShape "youtu.be/".data s ∨ WatchShape s ∨
  LitShape "youtube.com/embed/".data s ∨ LitShape "youtube.com/v/".data s ∨
  LitShape "youtube.com/shorts/".data s

theorem idTake_eq_some (s g : List Char) :
    idTake s = some g ↔
      g = s.take 11 ∧ g.length = 11 ∧ g.all isIdChar = true := by
  unfold idTake
  by_cases h : ((s.take 11).length == 11 && (s.take 11).all isIdChar) = true
  · rw [if_pos h]
    rw [Bool.and_eq_true, beq_iff_eq] at h
    constructor
    · intro he
      obtain rfl : s.take 11 = g := Option.some.inj he
      exact ⟨rfl, h.1, h.2⟩
    · rintro ⟨hg, _, _⟩
      rw [hg]
  · rw [if_neg h]
    constructor
    · intro he
      exact absurd he (by simp)
    · rintro ⟨hg, h2, h3⟩
      subst hg
      exact absurd (by rw [Bool.and_eq_true, beq_iff_eq]; exact ⟨h2, h3⟩) h

theorem matchLitAt_eq_some (lit s g : List Char) :
    matchLitAt lit s = some g ↔
      ∃ post, s = lit ++ g ++ post ∧ g.length = 11 ∧ g.all isIdChar = true := by
  unfold matchLitAt
  by_cases hp : lit.isPrefixOf s = true
  · rw [if_pos hp]
    obtain ⟨t, ht⟩ : ∃ t, lit ++ t = s := List.isPrefixOf_iff_prefix.mp hp
    subst ht
    rw [List.drop_left, idTake_eq_some]
    constructor
    · rintro ⟨hg, h2, h3⟩
      refine ⟨t.drop 11, ?_, h2, h3⟩
      rw [List.append_assoc]
      rw [hg, List.take_append_drop]
    · rintro ⟨post, heq, h2, h3⟩
      rw [List.append_assoc] at heq
      obtain rfl : t = g ++ post := List.append_cancel_left heq
      refine ⟨?_, h2, h3⟩
      rw [← h2, List.take_left]
  · rw [if_neg hp]
    constructor
    · intro he
      exact absurd he (by simp)
    · rintro ⟨post, heq, _, _⟩
      refine absurd (List.isPrefixOf_iff_prefix.mpr ⟨g ++ post, ?_⟩) hp
      rw [← List.append_assoc, ← heq]

theorem reSearch_some_exists (m : List Char → Option (List Char)) :
    ∀ (s : List Char) (g : List Char),
      reSearch m s = some g → ∃ t, t <:+ s ∧ m t = some g := by
  intro s
  induction s with
  | nil => intro g h; exact ⟨[], List.suffix_refl [], h⟩
  | cons c rest ih =>
    intro g h
    unfold reSearch at h
    cases hm : m (c :: rest) with
    | some g2 =>
      rw [hm] at h
      obtain rfl : g2 = g := Option.some.inj h
      exact ⟨c :: rest, List.suffix_refl _, hm⟩
    | none =>
      rw [hm] at h
      obtain ⟨t, ht, hmt⟩ := ih g h
      exact ⟨t, ht.trans (List.suffix_cons c rest), hmt⟩

theorem reSearch_isSome (m : List Char → Option (List Char)) :
    ∀ s : List Char,
      (reSearch m s).isSome = true ↔ ∃ t, t <:+ s ∧ (m t).isSome = true := by
  intro s
  induction s with
  | nil =>
    show (m []).isSome = true ↔ _
    constructor
    · intro h; exact ⟨[], List.suffix_refl [], h⟩
    · rintro ⟨t, ht, hmt⟩
      obtain rfl : t = [] := List.suffix_nil.mp ht
      exact hmt
  | cons c rest ih =>
    unfold reSearch
    cases hm : m (c :: rest) with
    | some g =>
      simp only [Option.isSome_some, true_iff]
      exact ⟨c :: rest, List.suffix_refl _, by rw [hm]; rfl⟩
    | none =>
      rw [ih]
      constructor
      · rintro ⟨t, ht, hmt⟩
        exact ⟨t, ht.trans (List.suffix_cons c rest), hmt⟩
      · rintro ⟨t, ht, hmt⟩
        rcases List.suffix_cons_iff.mp ht with h | h
        · subst h
          rw [hm] at hmt
          exact absurd hmt (by simp)
        · exact ⟨t, h, hmt⟩

theorem reSearch_matchLitAt_isSome (lit s : List Char) :
    (reSearch (matchLitAt lit) s).isSome = true ↔ LitShape lit s := by
  rw [reSearch_isSome]
  constructor
  · rintro ⟨t, ⟨pre, hpre⟩, hmt⟩
    obtain ⟨g, hg⟩ := Option.isSome_iff_exists.mp hmt
    obtain ⟨post, heq, h2, h3⟩ := (matchLitAt_eq_some lit t g).mp hg
    refine ⟨pre, g, post, ?_, h2, List.all_eq_true.mp h3⟩
    rw [← hpre, heq]
    simp [List.append_assoc]
  · rintro ⟨pre, g, post, heq, h2, h3⟩
    refine ⟨lit ++ g ++ post, ⟨pre, ?_⟩, ?_⟩
    · rw [heq]
      simp [List.append_assoc]
    · rw [Option.isSome_iff_exists]
      exact ⟨g, (matchLitAt_eq_some lit _ g).mpr
        ⟨post, by simp [List.append_assoc], h2, List.all_eq_true.mpr h3⟩⟩

theorem greedyV_isSome :
    ∀ s : List Char, (greedyV s).isSome = true ↔
      ∃ mid rest, s = mid ++ rest ∧ (∀ c ∈ mid, c ≠ '\n') ∧
        (vMatch rest).isSome = true := by
  intro s
  induction s with
  | nil =>
    show (vMatch []).isSome = true ↔ _
    constructor
    · intro h; exact ⟨[], [], rfl, by simp, h⟩
    · rintro ⟨mid, rest, heq, _, hv⟩
      obtain ⟨rfl, rfl⟩ := List.append_eq_nil.mp heq.symm
      exact hv
  | cons c rest ih =>
    unfold greedyV
    by_cases hc : c == '\n'
    · rw [if_pos hc]
      have hc2 : c = '\n' := beq_iff_eq.mp hc
      constructor
      · intro h; exact ⟨[], c :: rest, rfl, by simp, h⟩
      · rintro ⟨mid, r2, heq, hnl, hv⟩
        cases mid with
        | nil => rw [List.nil_append] at heq; rw [heq]; exact hv
        | cons m ms =>
          exfalso
          injection heq with h1 h2
          exact hnl m (List.mem_cons_self m ms) (by rw [← h1]; exact hc2)
    · rw [if_neg hc]
      have hc2 : c ≠ '\n' := fun h => hc (beq_iff_eq.mpr h)
      constructor
      · intro h
        cases hg : greedyV rest with
        | some g =>
          obtain ⟨mid, r2, heq, hnl, hv⟩ := ih.mp (by rw [hg]; rfl)
          refine ⟨c :: mid, r2, by rw [heq]; rfl, ?_, hv⟩
          intro x hx
          rcases List.mem_cons.mp hx with h2 | h2
          · rw [h2]; exact hc2
          · exact hnl x h2
        | none =>
          rw [hg] at h
          exact ⟨[], c :: rest, rfl, by simp, h⟩
      · rintro ⟨mid, r2, heq, hnl, hv⟩
        cases hg : greedyV rest with
        | some g => rfl
        | none =>
          show (vMatch (c :: rest)).isSome = true
          cases mid with
          | nil => rw [List.nil_append] at heq; rw [heq]; exact hv
          | cons m ms =>
            exfalso
            injection heq with h1 h2
            have : (greedyV rest).isSome = true :=
              ih.mpr ⟨ms, r2, h2, fun x hx => hnl x (List.mem_cons_of_mem m hx), hv⟩
            rw [hg] at this
            exact absurd this (by simp)

theorem reSearch_watchMatch_isSome (s : List Char) :
    (reSearch watchMatch s).isSome = true ↔ WatchShape s := by
  rw [reSearch_isSome]
  constructor
  · rintro ⟨t, ⟨pre, hpre⟩, hmt⟩
    unfold watchMatch at hmt
    by_cases hp : watchLit.isPrefixOf t = true
    · rw [if_pos hp] at hmt
      obtain ⟨u, hu⟩ : ∃ u, watchLit ++ u = t := List.isPrefixOf_iff_prefix.mp hp
      rw [← hu, List.drop_left] at hmt
      obtain ⟨mid, rest, hrest, hnl, hv⟩ := (greedyV_isSome u).mp hmt
      obtain ⟨g, hg⟩ := Option.isSome_iff_exists.mp hv
      obtain ⟨post, heq, h2, h3⟩ := (matchLitAt_eq_some _ rest g).mp hg
      refine ⟨pre, mid, g, post, ?_, hnl, h2, List.all_eq_true.mp h3⟩
      rw [← hpre, ← hu, hrest, heq]
      simp [List.append_assoc]
    · rw [if_neg hp] at hmt
      exact absurd hmt (by simp)
  · rintro ⟨pre, mid, g, post, heq, hnl, h2, h3⟩
    refine ⟨watchLit ++ (mid ++ (['v', '='] ++ (g ++ post))), ⟨pre, ?_⟩, ?_⟩
    · rw [heq]; simp [List.append_assoc]
    · unfold watchMatch
      rw [if_pos (List.isPrefixOf_iff_prefix.mpr ⟨_, rfl⟩), List.drop_left]
      apply (greedyV_isSome _).mpr
      refine ⟨mid, ['v', '='] ++ (g ++ post), rfl, hnl, ?_⟩
      rw [Option.isSome_iff_exists]
      exact ⟨g, (matchLitAt_eq_some _ _ g).mpr
        ⟨post, rfl, h2, List.all_eq_true.mpr h3⟩⟩

theorem vMatch_some_len (s g : List Char) (h : vMatch s = some g) :
    g.length = 11 := by
  obtain ⟨post, _, h2, _⟩ := (matchLitAt_eq_some _ s g).mp h
  exact h2

theorem greedyV_some_len :
    ∀ (s g : List Char), greedyV s = some g → g.length = 11 := by
  intro s
  induction s with
  | nil => intro g h; exact vMatch_some_len [] g h
  | cons c rest ih =>
    intro g h
    unfold greedyV at h
    by_cases hc : c == '\n'
    · rw [if_pos hc] at h
      exact vMatch_some_len _ g h
    · rw [if_neg hc] at h
      cases hg : greedyV rest with
      | some g2 =>
        rw [hg] at h
        rw [← Option.some.inj h]
        exact ih g2 hg
      | none =>
        rw [hg] at h
        exact vMatch_some_len _ g h

theorem matchLitAt_some_len (lit s g : List Char) (h : matchLitAt lit s = some g) :
    g.length = 11 := by
  obtain ⟨post, _, h2, _⟩ := (matchLitAt_eq_some lit s g).mp h
  exact h2

theorem watchMatch_some_len (s g : List Char) (h : watchMatch s = some g) :
    g.length = 11 := by
  unfold watchMatch at h
  by_cases hp : watchLit.isPrefixOf s = true
  · rw [if_pos hp] at h
    exact greedyV_some_len _ g h
  · rw [if_neg hp] at h
    exact absurd h (by simp)

theorem reSearch_some_len (m : List Char → Option (List Char))
    (hm : ∀ t g, m t = some g → g.length = 11) (s g : List Char)
    (h : reSearch m s = some g) : g.length = 11 := by
  obtain ⟨t, _, hmt⟩ := reSearch_some_exists m s g h
  exact hm t g hmt

theorem searchPatterns_some_len (s g : List Char)
    (h : searchPatterns s = some g) : g.length = 11 := by
  unfold searchPatterns at h
  cases h1 : reSearch pat1 s with
  | some g2 =>
    rw [h1] at h
    rw [← Option.some.inj h]
    exact reSearch_some_len pat1 (fun t u => matchLitAt_some_len _ t u) s g2 h1
  | none =>
    rw [h1] at h
    cases h2 : reSearch watchMatch s with
    | some g2 =>
      rw [h2] at h
      rw [← Option.some.inj h]
      exact reSearch_some_len watchMatch watchMatch_some_len s g2 h2
    | none =>
      rw [h2] at h
      cases h3 : reSearch pat3 s with
      | some g2 =>
        rw [h3] at h
        rw [← Option.some.inj h]
        exact reSearch_some_len pat3 (fun t u => matchLitAt_some_len _ t u) s g2 h3
      | none =>
        rw [h3] at h
        cases h4 : reSearch pat4 s with
        | some g2 =>
          rw [h4] at h
          rw [← Option.some.inj h]
          exact reSearch_some_len pat4 (fun t u => matchLitAt_some_len _ t u) s g2 h4
        | none =>
          rw [h4] at h
          exact reSearch_some_len pat5 (fun t u => matchLitAt_some_len _ t u) s g h

theorem searchPatterns_isSome (s : List Char) :
    (searchPatterns s).isSome = true ↔ MatchesPattern s := by
  have e1 : (reSearch pat1 s).isSome = true ↔ LitShape "youtu.be/".data s :=
    reSearch_matchLitAt_isSome _ s
  have e2 := reSearch_watchMatch_isSome s
  have e3 : (reSearch pat3 s).isSome = true ↔ LitShape "youtube.com/embed/".data s :=
    reSearch_matchLitAt_isSome _ s
  have e4 : (reSearch pat4 s).isSome = true ↔ LitShape "youtube.com/v/".data s :=
    reSearch_matchLitAt_isSome _ s
  have e5 : (reSearch pat5 s).isSome = true ↔ LitShape "youtube.com/shorts/".data s :=
    reSearch_matchLitAt_isSome _ s
  unfold searchPatterns MatchesPattern
  cases h1 : reSearch pat1 s with
  | some g =>
    simp only [Option.isSome_some, true_iff]
    exact Or.inl (e1.mp (by rw [h1]; rfl))
  | none =>
    cases h2 : reSearch watchMatch s with
    | some g =>
      simp only [Option.isSome_some, true_iff]
      exact Or.inr (Or.inl (e2.mp (by rw [h2]; rfl)))
    | none =>
      cases h3 : reSearch pat3 s with
      | some g =>
        simp only [Option.isSome_some, true_iff]
        exact Or.inr (Or.inr (Or.inl (e3.mp (by rw [h3]; rfl))))
      | none =>
        cases h4 : reSearch pat4 s with
        | some g =>
          simp only [Option.isSome_some, true_iff]
          exact Or.inr (Or.inr (Or.inr (Or.inl (e4.mp (by rw [h4]; rfl)))))
        | none =>
          rw [e5]
          constructor
          · exact fun h => Or.inr (Or.inr (Or.inr (Or.inr h)))
          · rintro (h | h | h | h | h)
            · have := e1.mpr h; rw [h1] at this; exact absurd this (by simp)
            · have := e2.mpr h; rw [h2] at this; exact absurd this (by simp)
            · have := e3.mpr h; rw [h3] at this; exact absurd this (by simp)
            · have := e4.mpr h; rw [h4] at this; exact absurd this (by simp)
            · exact h

/-- Claim C1: `extract_video_id` succeeds with an 11-character
identifier exactly when the input contains one of the five URL shapes
or is itself a bare 11-character id-charset string; in every other case
it produces the diagnostic naming the offending input and `main` exits
with code 1 after printing it to the error stream. -/
theorem claim1_resolver (url : String) :
    ((∃ id, extract_video_id url = .ok id ∧ id.length = 11) ↔
      (MatchesPattern url.data ∨ ValidId url.data)) ∧
    (∀ e, extract_video_id url = .error e →
      (e = "Error: Could not extract video ID from: " ++ url ∧
       ¬ MatchesPattern url.data ∧ ¬ ValidId url.data)) ∧
    (∀ (flag : Bool) (w : World) (e : String), extract_video_id url = .error e →
      mainRun url flag w = ([Event.errLine e], 1)) := by
  have hmain : ∀ (flag : Bool) (w : World) (e : String),
      extract_video_id url = .error e → mainRun url flag w = ([Event.errLine e], 1) := by
    intro flag w e he
    unfold mainRun
    rw [he]
  have hbare : (url.data.length == 11 && url.data.all isIdChar) = true ↔
      ValidId url.data := by
    rw [Bool.and_eq_true, beq_iff_eq, List.all_eq_true]
    exact Iff.rfl
  cases hs : searchPatterns url.data with
  | some g =>
    have hmatch : MatchesPattern url.data :=
      (searchPatterns_isSome url.data).mp (by rw [hs]; rfl)
    have hok : extract_video_id url = .ok (String.mk g) := by
      unfold extract_video_id
      rw [hs]
    have hlen : (String.mk g).length = 11 := searchPatterns_some_len _ _ hs
    refine ⟨⟨fun _ => Or.inl hmatch, fun _ => ⟨String.mk g, hok, hlen⟩⟩, ?_, hmain⟩
    intro e he
    rw [hok] at he
    exact absurd he (by simp)
  | none =>
    by_cases hb : (url.data.length == 11 && url.data.all isIdChar) = true
    · have hvalid : ValidId url.data := hbare.mp hb
      have hok : extract_video_id url = .ok url := by
        unfold extract_video_id
        rw [hs, if_pos hb]
      refine ⟨⟨fun _ => Or.inr hvalid, fun _ => ⟨url, hok, hvalid.1⟩⟩, ?_, hmain⟩
      intro e he
      rw [hok] at he
      exact absurd he (by simp)
    · have herr : extract_video_id url =
          .error ("Error: Could not extract video ID from: " ++ url) := by
        unfold extract_video_id
        rw [hs, if_neg hb]
      have hnm : ¬ MatchesPattern url.data := by
        intro hm
        have := (searchPatterns_isSome url.data).mpr hm
        rw [hs] at this
        exact absurd this (by simp)
      have hnv : ¬ ValidId url.data := fun hv => hb (hbare.mpr hv)
      refine ⟨⟨?_, ?_⟩, ?_, hmain⟩
      · rintro ⟨id, hok, _⟩
        rw [herr] at hok
        exact absurd hok (by simp)
      · rintro (hm | hv)
        · exact absurd hm hnm
        · exact absurd hv hnv
      · intro e he
        rw [herr] at he
        injection he with hmsg
        exact ⟨hmsg.symm, hnm, hnv⟩

theorem claim1_resolver_w :
    extract_video_id "an invalid input!" =
      .error "Error: Could not extract video ID from: an invalid input!" ∧
    ¬ MatchesPattern ("an invalid input!" : String).data ∧
    ¬ ValidId ("an invalid input!" : String).data ∧
    mainRun "an invalid input!" true sampleWorld =
      ([Event.errLine "Error: Could not extract video ID from: an invalid input!"], 1) := by
  have h1 : extract_video_id "an invalid input!" =
      .error "Error: Could not extract video ID from: an invalid input!" := rfl
  have h2 := (claim1_resolver "an invalid input!").2.1 _ h1
  exact ⟨h1, h2.2.1, h2.2.2,
    (claim1_resolver "an invalid input!").2.2 true sampleWorld _ h1⟩

/-! ### Claim C10: patterns match anywhere, the leftmost occurrence of
the earliest-listed pattern winning -/

/-- An input embedding two short-link shapes, the earlier one with a
different identifier. -/
def c10input : String := "youtu.be/aaaaaaaaaaa youtu.be/bbbbbbbbbbb"

/-- Counterexample to claim C10 as stated: `c10input` contains the
short-link shape with the identifier "bbbbbbbbbbb" embedded, yet
`extract_video_id` does not return it — the leftmost occurrence wins
within a pattern, so "aaaaaaaaaaa" is returned instead. -/
theorem claim10_cex :
    (∃ pre post, c10input.data =
      pre ++ ("youtu.be/" : String).data ++ ("bbbbbbbbbbb" : String).data ++ post ∧
      ValidId ("bbbbbbbbbbb" : String).data) ∧
    extract_video_id c10input = .ok "aaaaaaaaaaa" ∧
    ("aaaaaaaaaaa" : String) ≠ "bbbbbbbbbbb" := by
  refine ⟨⟨("youtu.be/aaaaaaaaaaa " : String).data, [], by decide, by decide, by decide⟩,
    rfl, by decide⟩

/-- If the matcher fails at every position before `j` and matches at
`j`, the search returns the match found at `j`. -/
theorem reSearch_first (m : List Char → Option (List Char)) :
    ∀ (s : List Char) (j : Nat) (g : List Char),
      (∀ k, k < j → m (s.drop k) = none) → m (s.drop j) = some g →
      reSearch m s = some g := by
  intro s
  induction s with
  | nil =>
    intro j g _ hj
    rw [List.drop_nil] at hj
    exact hj
  | cons c rest ih =>
    intro j g hlt hj
    cases j with
    | zero =>
      rw [List.drop_zero] at hj
      unfold reSearch
      rw [hj]
    | succ j2 =>
      have h0 : m (c :: rest) = none := by
        have := hlt 0 (Nat.succ_pos j2)
        rwa [List.drop_zero] at this
      unfold reSearch
      rw [h0]
      rw [List.drop_succ_cons] at hj
      refine ih j2 g ?_ hj
      intro k hk
      have := hlt (k + 1) (by omega)
      rwa [List.drop_succ_cons] at this

/-- Claim C10 (amended): the URL patterns are matched as substrings
anywhere in the input, not anchored — for an input `pre ++ "youtu.be/"
++ v ++ post` with `v` an 11-character id group, `extract_video_id`
returns `v` provided pattern 1 has no match starting inside `pre`
(otherwise the leftmost occurrence wins); and the earliest pattern in
the fixed list takes precedence over later-listed patterns even when
those occur earlier in the string, as the concrete embed-then-shortlink
input shows.  Only the bare-identifier rule requires the entire input
to match. -/
theorem claim10_substring (pre v post : String)
    (hv1 : v.data.length = 11) (hv2 : v.data.all isIdChar = true)
    (hpre : ∀ k, k < pre.data.length →
      pat1 ((pre ++ "youtu.be/" ++ v ++ post).data.drop k) = none) :
    extract_video_id (pre ++ "youtu.be/" ++ v ++ post) = .ok v ∧
    extract_video_id "youtube.com/embed/ccccccccccc and youtu.be/ddddddddddd" =
      .ok "ddddddddddd" := by
  refine ⟨?_, rfl⟩
  have hdata : (pre ++ "youtu.be/" ++ v ++ post).data =
      pre.data ++ (("youtu.be/" : String).data ++ (v.data ++ post.data)) := by
    rw [String.data_append, String.data_append, String.data_append]
    simp [List.append_assoc]
  have hdrop : (pre ++ "youtu.be/" ++ v ++ post).data.drop pre.data.length =
      ("youtu.be/" : String).data ++ (v.data ++ post.data) := by
    rw [hdata, List.drop_left]
  have hat : pat1 ((pre ++ "youtu.be/" ++ v ++ post).data.drop pre.data.length) =
      some v.data := by
    rw [hdrop]
    unfold pat1 matchLitAt
    rw [if_pos (List.isPrefixOf_iff_prefix.mpr ⟨_, rfl⟩), List.drop_left]
    unfold idTake
    have htake : (v.data ++ post.data).take 11 = v.data := by
      rw [← hv1, List.take_left]
    rw [htake, if_pos (by rw [Bool.and_eq_true, beq_iff_eq]; exact ⟨hv1, hv2⟩)]
  have hsearch : reSearch pat1 (pre ++ "youtu.be/" ++ v ++ post).data = some v.data :=
    reSearch_first pat1 _ pre.data.length v.data hpre hat
  unfold extract_video_id searchPatterns
  rw [hsearch]

theorem claim10_substring_w :
    (("dQw4w9WgXcQ" : String).data.length = 11 ∧
     ("dQw4w9WgXcQ" : String).data.all isIdChar = true ∧
     (∀ k, k < ("Check out " : String).data.length →
       pat1 (("Check out " ++ "youtu.be/" ++ "dQw4w9WgXcQ" ++ " now").data.drop k) =
         none)) ∧
    extract_video_id ("Check out " ++ "youtu.be/" ++ "dQw4w9WgXcQ" ++ " now") =
      .ok "dQw4w9WgXcQ" ∧
    extract_video_id "youtube.com/embed/ccccccccccc and youtu.be/ddddddddddd" =
      .ok "ddddddddddd" := by
  have hpre : ∀ k, k < ("Check out " : String).data.length →
      pat1 (("Check out " ++ "youtu.be/" ++ "dQw4w9WgXcQ" ++ " now").data.drop k) =
        none := by decide
  exact ⟨⟨by decide, by decide, hpre⟩,
    claim10_substring "Check out " "dQw4w9WgXcQ" " now" (by decide) (by decide) hpre⟩
